import Mathlib

/-!
Verification development for the AutoMed medical-triage repository.

The JavaScript sources are shallowly embedded as Lean definitions:
pure functions become Lean functions, the in-memory session map becomes
explicit state passing, external providers (LLM, embedding model, vector
database) become function parameters, and thrown JS errors become
`Except` values.  Strings are Lean `String`s (or `List Char` where list
lemmas are needed); JS falsiness of the empty string is modelled by
explicit comparison with `""`/`[]`.
-/

set_option autoImplicit false

/-! ## Generic string helpers (models of JS string primitives) -/

/-- Model of `String.prototype.startsWith` on character lists:
`isPrefixB pat s` is true when `pat` is an initial segment of `s`. -/
def isPrefixB : List Char → List Char → Bool
  | [], _ => true
  | _ :: _, [] => false
  | p :: ps, c :: cs => p = c && isPrefixB ps cs

/-- Model of `String.prototype.includes` on character lists:
`containsB needle hay` is true when `needle` occurs as a contiguous
substring of `hay`. -/
def containsB (needle : List Char) : List Char → Bool
  | [] => isPrefixB needle []
  | c :: cs => isPrefixB needle (c :: cs) || containsB needle cs

/-- Model of `haystack.includes(needle)` on `String`. -/
def strIncludes (haystack needle : String) : Bool :=
  containsB needle.data haystack.data

/-- Model of `String.prototype.toLowerCase` (ASCII letters suffice for the
keyword tables used by the sources). -/
def toLowerStr (s : String) : String :=
  ⟨s.data.map Char.toLower⟩

/-- Word characters of the JavaScript regex class `\w`: `[A-Za-z0-9_]`. -/
def isWordChar (c : Char) : Bool :=
  c.isAlphanum || c = '_'

/-- Case-insensitive anchored match of `pat` at the front of `t`,
requiring that the character right after the match (if any) is not a
word character (the closing `\b` of the regexes in the sources). -/
def matchAtB (pat t : List Char) : Bool :=
  (isPrefixB (pat.map Char.toLower) (t.map Char.toLower)) &&
    (match t.drop pat.length with
      | [] => true
      | c :: _ => !(isWordChar c))

/-- Scanner for `new RegExp("\\b" + pat + "\\b", "i").test(text)`:
walks the text remembering the previous character so that the opening
`\b` (previous character absent or not a word character) can be checked
at every position. -/
def findWordCI (pat : List Char) : Option Char → List Char → Bool
  | prev, [] =>
    (match prev with | none => true | some p => !(isWordChar p)) && matchAtB pat []
  | prev, c :: rest =>
    ((match prev with | none => true | some p => !(isWordChar p)) &&
      matchAtB pat (c :: rest)) || findWordCI pat (some c) rest

/-- Model of the case-insensitive word-boundary regex test
`/\bPAT\b/i.test(text)` used throughout the sources. -/
def testWordCI (pat text : String) : Bool :=
  findWordCI pat.data none text.data

/-- Model of JavaScript `parseInt` (base 10): skip leading whitespace,
accept an optional sign, read leading decimal digits; `none` models the
`NaN` result when no digit is found. -/
def digitsVal (cs : List Char) : Option Nat :=
  let ds := cs.takeWhile Char.isDigit
  if ds.isEmpty then none
  else some (ds.foldl (fun acc c => acc * 10 + (c.toNat - 48)) 0)

/-- Model of JavaScript `parseInt(s)` returning `none` for `NaN`. -/
def parseIntJS (s : String) : Option Int :=
  let cs := s.data.dropWhile (fun c => c = ' ' || c = '\t' || c = '\n' || c = '\r')
  match cs with
  | '-' :: rest => (digitsVal rest).map (fun n => -(n : Int))
  | '+' :: rest => (digitsVal rest).map (fun n => (n : Int))
  | _ => (digitsVal cs).map (fun n => (n : Int))

/-! ## Conversation messages (shared data model)

`src/Backend/services/triageService.js` stores messages as
`{role, content}` objects with roles `'system'`, `'user'`, `'assistant'`;
the frontend mock in `src/unnamed/part_002` uses the same shape. -/

structure Message where
  role : String
  content : String
deriving DecidableEq, Repr

/-! ## Frontend mock triage service (`src/unnamed/part_002`)

`URGENCY_LEVELS` maps the four levels to the strings
`'emergency'`, `'urgent'`, `'semi-urgent'`, `'non-urgent'`. -/

/-- The chief-complaint analysis object produced by `analyzeMockComplaint`;
`potentialUrgency` is `Option`al to model the `|| URGENCY_LEVELS.NON_URGENT`
fallback, and `redFlags` is `Option`al to model the `redFlags?.some` optional
chaining in `generateMockTriageResult`. -/
structure ComplaintAnalysis where
  potentialUrgency : Option String
  redFlags : Option (List String)
deriving Repr

/-- Patient data as read by the mock result generator (only the `age`
field is consulted, through `parseInt`). -/
structure MockPatientData where
  age : String
deriving Repr

/-- The result object built by `generateMockTriageResult`. -/
structure MockTriageResult where
  urgencyLevel : String
  recommendation : String
  warnings : List String
  nextSteps : List String
deriving Repr

/-- Embedding of `getRecommendationByUrgency` (part_002 lines 381-394). -/
def getRecommendationByUrgency (urgencyLevel : String) : String :=
  if urgencyLevel = "emergency" then
    "Based on the information provided, you may be experiencing a medical emergency. Please call emergency services (911) immediately or go to the nearest emergency room."
  else if urgencyLevel = "urgent" then
    "Your symptoms require prompt medical attention. Please visit an urgent care center or emergency room within the next 1-2 hours."
  else if urgencyLevel = "semi-urgent" then
    "Your condition should be evaluated by a healthcare provider. Please schedule an appointment with your doctor within the next 24 hours or visit an urgent care center if your symptoms worsen."
  else if urgencyLevel = "non-urgent" then
    "Your symptoms can likely be managed with home care or through a routine appointment with your primary care provider. Please schedule a regular appointment in the next few days."
  else
    "Please consult with a healthcare provider to evaluate your symptoms."

/-- Embedding of `getWarningsByUrgency` (part_002 lines 402-436): the fixed
disclaimer is pushed first, then urgency-specific warnings, then
age-specific warnings guarded by `parseInt`. -/
def getWarningsByUrgency (urgencyLevel : String) (patientData : MockPatientData) : List String :=
  let warnings := ["This is an automated assessment and not a medical diagnosis."]
  let warnings := warnings ++
    (if urgencyLevel = "emergency" then
      ["Do not drive yourself if you are experiencing severe symptoms.",
       "Call emergency services (911) immediately."]
    else if urgencyLevel = "urgent" then
      ["If your symptoms worsen, call emergency services (911)."]
    else if urgencyLevel = "semi-urgent" then
      ["If your symptoms suddenly worsen, seek immediate medical attention."]
    else if urgencyLevel = "non-urgent" then
      ["Monitor your symptoms. If they worsen or persist, contact your healthcare provider."]
    else [])
  warnings ++
    (match parseIntJS patientData.age with
    | none => []
    | some age =>
      if age < 2 && (urgencyLevel = "urgent" || urgencyLevel = "semi-urgent") then
        ["Young children can deteriorate quickly. Monitor them closely for any changes."]
      else if age > 65 then
        ["Older adults may have atypical presentations of serious conditions. Consider seeking medical attention even for mild symptoms."]
      else [])

/-- Embedding of `getNextStepsByUrgency` (part_002 lines 444-483). -/
def getNextStepsByUrgency (urgencyLevel : String) : List String :=
  if urgencyLevel = "emergency" then
    ["Call emergency services (911) immediately.",
     "Do not eat or drink anything until evaluated by medical professionals.",
     "If you have prescribed emergency medications (like nitroglycerin for chest pain), take them as prescribed.",
     "Stay calm and wait for emergency services to arrive."]
  else if urgencyLevel = "urgent" then
    ["Go to the nearest urgent care center or emergency room within the next 1-2 hours.",
     "If possible, bring a list of your current medications.",
     "If symptoms worsen before you arrive, call emergency services.",
     "Arrange for someone else to drive you if possible."]
  else if urgencyLevel = "semi-urgent" then
    ["Contact your doctor to schedule an appointment within the next 24 hours.",
     "Monitor your symptoms closely and keep a log of any changes.",
     "Take over-the-counter medications as appropriate for symptom relief.",
     "Rest and stay hydrated.",
     "If symptoms worsen, seek more immediate medical attention."]
  else if urgencyLevel = "non-urgent" then
    ["Schedule a routine appointment with your primary care provider.",
     "Try appropriate home care measures for your symptoms.",
     "Rest and ensure adequate hydration.",
     "Take over-the-counter medications as appropriate for symptom relief.",
     "If symptoms persist beyond 7-10 days or worsen, follow up with your healthcare provider."]
  else
    ["Monitor your symptoms closely.",
     "Contact your healthcare provider if you have concerns.",
     "Ensure you\x27re getting adequate rest and hydration."]

/-- The five emergency-indicator substrings tested (lowercased) against
user messages in `generateMockTriageResult` (part_002 lines 339-345). -/
def mockEmergencyWords : List String :=
  ["severe", "excruciating", "worst", "can\x27t breathe", "10 out of 10"]

/-- Embedding of `generateMockTriageResult` (part_002 lines 328-374):
starts from the complaint analysis urgency, upgrades to `'urgent'` when an
emergency indicator occurs in a user message (unless already
`'emergency'`), then upgrades one step further when a red flag is
mentioned. -/
def generateMockTriageResult (patientData : MockPatientData) (chatHistory : List Message)
    (complaintAnalysis : ComplaintAnalysis) : MockTriageResult :=
  let urgency0 := complaintAnalysis.potentialUrgency.getD "non-urgent"
  let urgencyLevel :=
    if chatHistory.isEmpty then urgency0
    else
      let userMessages := (chatHistory.filter (fun m => m.role = "user")).map
        (fun m => toLowerStr m.content)
      let hasEmergencyWords := userMessages.any (fun msg =>
        mockEmergencyWords.any (fun w => strIncludes msg w))
      let u1 := if hasEmergencyWords && !(urgency0 = "emergency") then "urgent" else urgency0
      let redFlagsMentioned := (complaintAnalysis.redFlags.getD []).any (fun flag =>
        userMessages.any (fun msg => strIncludes msg (toLowerStr flag)))
      if redFlagsMentioned then
        if u1 = "non-urgent" then "semi-urgent"
        else if u1 = "semi-urgent" then "urgent"
        else u1
      else u1
  { urgencyLevel := urgencyLevel
    recommendation := getRecommendationByUrgency urgencyLevel
    warnings := getWarningsByUrgency urgencyLevel patientData
    nextSteps := getNextStepsByUrgency urgencyLevel }

/-! ## Backend triage session service (`src/Backend/services/triageService.js`)

The in-memory `activeSessions` map becomes an association list passed in
and out explicitly; the external LLM and RAG services become function
parameters; `throw new Error(...)` becomes `Except.error`. -/

/-- Patient information supplied at session creation. -/
structure PatientInfo where
  name : String
  age : String
  gender : String
  medicalHistory : String
deriving DecidableEq, Repr

/-- The triage result stored by `processUserMessage` when the completion
analysis says the session can complete (triageService.js lines 163-169). -/
structure TriageResultR where
  urgencyLevel : String
  recommendedAction : String
  reasoning : String
deriving DecidableEq, Repr

/-- A triage session as stored in `activeSessions`
(triageService.js lines 27-42). -/
structure Session where
  patientId : String
  patientInfo : PatientInfo
  messages : List Message
  createdAt : Nat
  lastUpdated : Nat
  complete : Bool
  triageResult : Option TriageResultR
deriving DecidableEq, Repr

/-- The structured analysis object returned by `llmService.generateAnalysis`
(an external LLM call; modelled as a function parameter). -/
structure Analysis where
  canComplete : Bool
  urgencyLevel : String
  recommendedAction : String
  reasoning : String
  missingInformation : List String
deriving DecidableEq, Repr

/-- Outcome of `analyzeForTriageCompletion`
(triageService.js lines 162-176). -/
inductive CompletionOutcome where
  | complete (result : TriageResultR)
  | notComplete (missingInformation : List String)
deriving DecidableEq, Repr

/-- Embedding of `analyzeForTriageCompletion` (triageService.js lines
155-177): trusts the structured analysis verbatim — when
`analysis.canComplete` holds, its `urgencyLevel` is copied into the result
with no further check of the conversation text. -/
def analyzeForTriageCompletion (generateAnalysis : List Message → Analysis)
    (messages : List Message) : CompletionOutcome :=
  let analysis := generateAnalysis messages
  if analysis.canComplete then
    .complete { urgencyLevel := analysis.urgencyLevel
                recommendedAction := analysis.recommendedAction
                reasoning := analysis.reasoning }
  else
    .notComplete analysis.missingInformation

/-- Embedding of `generateSystemContext` (triageService.js lines 135-153);
`medicalHistory || 'None provided'` uses JS falsiness of `""`. -/
def generateSystemContext (patientInfo : PatientInfo) : String :=
  "You are AutoMed, an advanced medical triage AI assistant." ++
  " Patient: " ++ patientInfo.name ++
  " Age: " ++ patientInfo.age ++
  " Gender: " ++ patientInfo.gender ++
  " Medical History: " ++
    (if patientInfo.medicalHistory = "" then "None provided" else patientInfo.medicalHistory)

/-- The session store: `activeSessions`, an in-memory map from session id
to session, as an association list (first binding wins on lookup). -/
def SessionStore := List (String × Session)

/-- Model of `Map.prototype.set`: replace the binding if the key is
present, otherwise append it. -/
def storeSet : SessionStore → String → Session → SessionStore
  | [], k, v => [(k, v)]
  | (k', v') :: rest, k, v =>
    if k' = k then (k, v) :: rest else (k', v') :: storeSet rest k v

/-- Model of `Map.prototype.get` on the session store. -/
def storeGet (store : SessionStore) (k : String) : Option Session :=
  match store with
  | [] => none
  | (k', v') :: rest => if k' = k then some v' else storeGet rest k

/-- The response object returned by `processUserMessage`
(triageService.js lines 103-114). -/
structure ProcessResponse where
  message : String
  triageComplete : Bool
  urgencyLevel : Option String
  recommendedAction : Option String
deriving DecidableEq, Repr

/-- Embedding of `createSession` (triageService.js lines 12-50): the new
session starts with a system message and the generated greeting, with
`complete = false` and `triageResult = null`.  The LLM call is the
parameter `llm` (system context, history, optional instruction). -/
def createSession (llm : String → List Message → Option String → String) (now : Nat)
    (store : SessionStore) (sessionId : String) (patientInfo : PatientInfo)
    (userId : String) : SessionStore × String :=
  let systemContext := generateSystemContext patientInfo
  let initialMessage := llm systemContext []
    (some "Introduce yourself as a medical triage AI assistant and ask about the patient\x27s main concern.")
  let session : Session :=
    { patientId := userId
      patientInfo := patientInfo
      messages := [⟨"system", systemContext⟩, ⟨"assistant", initialMessage⟩]
      createdAt := now
      lastUpdated := now
      complete := false
      triageResult := none }
  (storeSet store sessionId session, initialMessage)

/-- Replace the content of the first message of a list, modelling the
in-place `session.messages[0].content = enhancedSystemContext` write
(well-defined here because a user message was just appended, so the list
is never empty at that point). -/
def setHeadContent (messages : List Message) (content : String) : List Message :=
  match messages with
  | [] => []
  | m :: rest => { m with content := content } :: rest

/-- Embedding of `processUserMessage` (triageService.js lines 53-115).
The only failure is `'Session not found'` for an unknown id — there is no
check of `session.complete`.  Otherwise the user message is appended, the
system message is enhanced with retrieved context, the assistant reply is
appended, and when the completion analysis returns `canComplete` the
session is marked complete and the result stored. -/
def processUserMessage (rag : String → List Message → String)
    (llm : String → List Message → Option String → String)
    (generateAnalysis : List Message → Analysis) (now : Nat)
    (store : SessionStore) (sessionId message : String) :
    Except String (SessionStore × ProcessResponse) :=
  match storeGet store sessionId with
  | none => .error "Session not found"
  | some session =>
    let messages1 := session.messages ++ [⟨"user", message⟩]
    let relevantInfo := rag message messages1
    let headContent := (messages1.head?.map Message.content).getD ""
    let enhancedSystemContext :=
      headContent ++ "\n\nRelevant medical information: " ++ relevantInfo
    let messages2 := setHeadContent messages1 enhancedSystemContext
    let response := llm enhancedSystemContext (messages2.drop 1) none
    let analysisResult := analyzeForTriageCompletion generateAnalysis messages2
    let messages3 := messages2 ++ [⟨"assistant", response⟩]
    match analysisResult with
    | .complete result =>
      let session' := { session with
        messages := messages3
        lastUpdated := now
        complete := true
        triageResult := some result }
      .ok (storeSet store sessionId session',
           { message := response
             triageComplete := true
             urgencyLevel := some result.urgencyLevel
             recommendedAction := some result.recommendedAction })
    | .notComplete _ =>
      let session' := { session with messages := messages3, lastUpdated := now }
      .ok (storeSet store sessionId session',
           { message := response
             triageComplete := false
             urgencyLevel := none
             recommendedAction := none })

/-- Embedding of `getTriageResult` (triageService.js lines 118-126):
returns `null` when the session is unknown or not complete. -/
def getTriageResult (store : SessionStore) (sessionId : String) : Option TriageResultR :=
  match storeGet store sessionId with
  | none => none
  | some session => if session.complete then session.triageResult else none

/-- States of the session store reachable through the service API:
the empty map, a `createSession` step, or a successful
`processUserMessage` step (with arbitrary behaviour of the external
providers at each step). -/
inductive ReachableStore : SessionStore → Prop where
  | init : ReachableStore []
  | create (store : SessionStore) (llm : String → List Message → Option String → String)
      (now : Nat) (sid : String) (info : PatientInfo) (uid : String) :
      ReachableStore store →
      ReachableStore (createSession llm now store sid info uid).1
  | step (store : SessionStore) (rag : String → List Message → String)
      (llm : String → List Message → Option String → String)
      (gen : List Message → Analysis) (now : Nat) (sid msg : String)
      (store' : SessionStore) (resp : ProcessResponse) :
      ReachableStore store →
      processUserMessage rag llm gen now store sid msg = .ok (store', resp) →
      ReachableStore store'

/-! ## Structured-analysis JSON fallback
(`src/Backend/services/llm interface.js` lines 192-303 and
`src/unnamed/part_004` `LangChainAdapter.generateStructuredAnalysis`
lines 165-236)

`JSON.parse` belongs to the JS runtime, so it is a function parameter
`jsonParse : String → Option JsonValue` (`none` models a thrown
`SyntaxError`); the surrounding control flow is embedded from the
sources. -/

/-- JSON values, the possible results of `JSON.parse`. -/
inductive JsonValue where
  | jnull
  | jbool (b : Bool)
  | jnum (n : Int)
  | jstr (s : String)
  | jarr (elems : List JsonValue)
  | jobj (fields : List (String × JsonValue))

/-- Field access on a parsed JSON object (`obj.field`). -/
def jsonGet (key : String) : JsonValue → Option JsonValue
  | .jobj fields => fields.lookup key
  | _ => none

/-- Model of `text.match(/({[\s\S]*})/)`: the greedy regex matches from
the first `\x7b` of the text through the last `\x7d`, provided that `\x7d`
comes after the `\x7b`; otherwise there is no match. -/
def extractBraced (s : String) : Option String :=
  let cs := s.data
  let pre := cs.takeWhile (fun c => !(c = '{'))
  let rest := cs.drop pre.length
  match rest with
  | [] => none
  | _ :: _ =>
    let dropped := rest.reverse.dropWhile (fun c => !(c = '}'))
    match dropped with
    | [] => none
    | _ :: _ => some ⟨dropped.reverse⟩

/-- The fallback analysis object of
`LangChainAdapter.generateStructuredAnalysis` (part_004 lines 224-227),
returned when JSON extraction or parsing fails. -/
def lcFormatFallback : JsonValue :=
  .jobj [("canComplete", .jbool false),
         ("missingInformation", .jarr [.jstr "Unable to analyze due to response format error"])]

/-- Embedding of the parse step of
`LangChainAdapter.generateStructuredAnalysis` (part_004 lines 212-228):
extract the brace-delimited fragment if any and parse it, otherwise parse
the whole reply; any parse failure yields the fallback object instead of
raising (the `try`/`catch` around the parse). -/
def lcStructuredAnalysis (jsonParse : String → Option JsonValue)
    (resultText : String) : JsonValue :=
  match extractBraced resultText with
  | some matched => (jsonParse matched).getD lcFormatFallback
  | none => (jsonParse resultText).getD lcFormatFallback

/-- The fallback analysis object `createFallbackAnalysis` of
`LLMInterface` (llm interface.js lines 298-303). -/
def llmFallbackAnalysis : JsonValue :=
  .jobj [("canComplete", .jbool false),
         ("missingInformation", .jarr [.jstr "Unable to complete analysis due to system error"])]

/-- Embedding of the non-OpenAI branch of
`LLMInterface.generateStructuredAnalysis` (llm interface.js lines
268-288): look for a brace-delimited JSON fragment; if none is found, or
parsing it fails, return `createFallbackAnalysis()` instead of raising. -/
def llmStructuredAnalysisLocal (jsonParse : String → Option JsonValue)
    (analysisResult : String) : JsonValue :=
  match extractBraced analysisResult with
  | some matched => (jsonParse matched).getD llmFallbackAnalysis
  | none => llmFallbackAnalysis

/-- The fallback analysis of `llmService.generateAnalysis`
(the record consumed by `analyzeForTriageCompletion` when the provider or
its JSON output failed): `canComplete = false` with the system-error
note. -/
def fallbackAnalysisRecord : Analysis :=
  { canComplete := false
    urgencyLevel := ""
    recommendedAction := ""
    reasoning := ""
    missingInformation := ["Unable to complete analysis due to system error"] }

/-! ## RAG retrieval for the session flow
(`services/ragService.js`, embedded in `src/Backend/services/FHIR.js`
lines 326-437)

The embedding model and the vector database are external services:
`embedQuery` and `searchDb` are `Except`-valued parameters whose `error`
results model thrown/rejected provider calls.  Everything inside the
JS `try` block that can fail is routed through them; the `catch` returns
the empty context string. -/

/-- The fixed symptom vocabulary of `extractMedicalTerms`
(FHIR.js lines 415-420). -/
def commonSymptoms : List String :=
  ["pain", "fever", "cough", "headache", "nausea", "dizzy", "vomiting",
   "chest", "breathing", "shortness", "breath", "fatigue", "weakness",
   "swelling", "blood", "pressure", "diabetes", "heart", "cancer",
   "infection", "allergy", "medication", "chronic", "acute"]

/-- Embedding of `extractMedicalTerms` (FHIR.js lines 408-427): keep the
vocabulary terms that occur with word boundaries (case-insensitively) in
the concatenated conversation plus query. -/
def extractMedicalTerms (query : String) (conversationHistory : List Message) : List String :=
  let allMessages :=
    String.intercalate " " (conversationHistory.map Message.content) ++ " " ++ query
  commonSymptoms.filter (fun term => testWordCI term allMessages)

/-- A document as returned by the vector-store search
(`doc.metadata.source` and `doc.pageContent`). -/
structure RagDoc where
  source : String
  pageContent : String
deriving DecidableEq, Repr

/-- The enhanced query built by `retrieveRelevantMedicalInfo`
(FHIR.js line 376). -/
def enhancedQueryOf (query : String) (conversationHistory : List Message) : String :=
  query ++ " " ++ String.intercalate " " (extractMedicalTerms query conversationHistory)

/-- Embedding of `retrieveRelevantMedicalInfo` (FHIR.js lines 368-405):
embed the enhanced query, search the vector database, and format the
results; if the embedding call or the search fails, the `catch` returns
`""` — the turn proceeds ungrounded rather than aborting. -/
def retrieveRelevantMedicalInfo (embedQuery : String → Except String (List Int))
    (searchDb : List Int → String → Except String (List RagDoc))
    (query : String) (conversationHistory : List Message) : String :=
  let enhancedQuery := enhancedQueryOf query conversationHistory
  match embedQuery enhancedQuery with
  | .error _ => ""
  | .ok queryEmbedding =>
    match searchDb queryEmbedding enhancedQuery with
    | .error _ => ""
    | .ok results =>
      String.intercalate "\n\n"
        (results.map (fun doc => "Source: " ++ doc.source ++ "\n" ++ doc.pageContent))

/-! ## Context budget truncation
(`MedicalRAGSystem._truncateContext`,
`src/Backend/utils/medicalEmbeddings.js` lines 872-897)

Document contents are `List Char` so that list length lemmas apply
directly; `doc.content || doc.text || ''` reads the `content` field when
it is non-empty (JS truthiness), else the `text` field. -/

/-- A retrieved document as consumed by `_truncateContext`. -/
structure CtxDoc where
  content : List Char
  text : List Char
  truncated : Bool
deriving DecidableEq, Repr

/-- Model of `doc.content || doc.text || ''`. -/
def effContent (doc : CtxDoc) : List Char :=
  if doc.content = [] then doc.text else doc.content

/-- Total content length of a document list (the quantity bounded by the
budget invariant). -/
def totalContentLength (docs : List CtxDoc) : Nat :=
  (docs.map (fun d => (effContent d).length)).sum

/-- The loop of `_truncateContext` with its running `totalLength`
accumulator: a document that fits is kept whole; the first document that
would overflow is hard-truncated to the remaining space when more than
100 characters remain (`if (remainingSpace > 100)`), otherwise dropped,
and the loop `break`s either way. -/
def truncateLoop (maxLength : Nat) : List CtxDoc → Nat → List CtxDoc
  | [], _ => []
  | doc :: rest, totalLength =>
    let content := effContent doc
    if totalLength + content.length ≤ maxLength then
      doc :: truncateLoop maxLength rest (totalLength + content.length)
    else
      let remainingSpace := maxLength - totalLength
      if remainingSpace > 100 then
        [{ doc with content := content.take remainingSpace, truncated := true }]
      else []

/-- Embedding of `_truncateContext(docs, maxLength)`
(medicalEmbeddings.js lines 872-897). -/
def truncateContext (docs : List CtxDoc) (maxLength : Nat) : List CtxDoc :=
  truncateLoop maxLength docs 0

/-! ## Urgency extraction from free text
(`MedicalRAGSystem.processTriage`,
`src/Backend/utils/medicalEmbeddings.js` lines 1163-1176)

`Object.entries(urgencyPatterns).forEach` visits the patterns in
insertion order EMERGENCY, URGENT, SEMI-URGENT, NON-URGENT and overwrites
`urgencyLevel` on every match, so the last matching pattern wins. -/

/-- Embedding of the urgency-extraction loop of `processTriage`:
start from `"UNKNOWN"` and assign each matching level in insertion
order. -/
def extractUrgencyLevel (triageResponse : String) : String :=
  let u0 := "UNKNOWN"
  let u1 := if testWordCI "EMERGENCY" triageResponse then "EMERGENCY" else u0
  let u2 := if testWordCI "URGENT" triageResponse then "URGENT" else u1
  let u3 := if testWordCI "SEMI-URGENT" triageResponse then "SEMI-URGENT" else u2
  if testWordCI "NON-URGENT" triageResponse then "NON-URGENT" else u3

/-! ## Flat L2 vector index

Modelled from the spec: the nearest-neighbour store behind
`MedicalEmbeddingsUtility.buildFaissIndex`/`search`
(medicalEmbeddings.js lines 121-143 and 379-426) is the external
`faiss-node` library (`IndexFlatL2`), not repository code.  Following
§4.1 of the spec, the index holds the embedding vectors in insertion
order and `search` returns the k chunks with smallest (squared L2)
distance, ties broken by insertion order; vector components are `ℚ`
(exact arithmetic in place of floats). -/

/-- Squared L2 distance between two equal-length vectors. -/
def sqDist (u v : List ℚ) : ℚ :=
  ((u.zip v).map (fun p => (p.1 - p.2) ^ 2)).sum

/-- Stable insertion of an (index, distance) pair: strictly smaller
distances move forward, equal distances keep the earlier entry first. -/
def insertByDist (x : Nat × ℚ) : List (Nat × ℚ) → List (Nat × ℚ)
  | [] => [x]
  | y :: ys => if x.2 < y.2 then x :: y :: ys else y :: insertByDist x ys

/-- Stable insertion sort of (index, distance) pairs by distance. -/
def sortByDist : List (Nat × ℚ) → List (Nat × ℚ)
  | [] => []
  | x :: xs => insertByDist x (sortByDist xs)

/-- Modelled from the spec: k-nearest-neighbour search of the flat L2
index — distances of the query to every stored vector, stably sorted,
first k indices returned. -/
def knnSearch (embeddings : List (List ℚ)) (queryVector : List ℚ) (k : Nat) : List Nat :=
  let pairs := (List.range embeddings.length).map
    (fun i => (i, sqDist (embeddings.getD i []) queryVector))
  ((sortByDist pairs).map Prod.fst).take k

/-- Embedding of the result-formatting loop of
`MedicalEmbeddingsUtility.search` (medicalEmbeddings.js lines 409-419) on
top of the spec-modelled index: each returned id inside the metadata
range contributes its metadata record. -/
def searchTopMeta (embeddings : List (List ℚ)) (metadata : List String)
    (queryVector : List ℚ) (k : Nat) : List String :=
  (knnSearch embeddings queryVector k).filterMap (fun idx => metadata.get? idx)

/-! ## Concrete fixtures used by witnesses and counterexamples -/

/-- Stub retrieval returning no context (a possible value of the external
RAG call). -/
def ragStub : String → List Message → String := fun _ _ => ""

/-- Stub LLM generation (a possible value of the external LLM call). -/
def llmStub : String → List Message → Option String → String :=
  fun _ _ _ => "What else can you tell me?"

/-- Stub completion analysis without a completion signal. -/
def genNotDone : List Message → Analysis :=
  fun _ => ⟨false, "", "", "", ["symptom duration"]⟩

/-- Stub completion analysis that signals completion with urgency
`Urgent`. -/
def genDone : List Message → Analysis :=
  fun _ => ⟨true, "Urgent", "Visit urgent care", "assessment", []⟩

/-- Stub completion analysis in which the model suggests `Non-urgent`
structured output. -/
def genModelDowngrade : List Message → Analysis :=
  fun _ => ⟨true, "Non-urgent", "Routine care", "model reasoning", []⟩

/-- A concrete patient record. -/
def patientA : PatientInfo := ⟨"Ann", "45", "F", ""⟩

/-- A concrete session that is already COMPLETE. -/
def completedSession : Session :=
  ⟨"p1", patientA, [⟨"system", "ctx"⟩, ⟨"assistant", "hi"⟩], 0, 0, true,
    some ⟨"non-urgent", "rest", "reasoning"⟩⟩

/-- A store holding only the completed session under id `"s1"`. -/
def storeWithCompleted : SessionStore := [("s1", completedSession)]

/-- Number of USER messages of a conversation (the turn count of the
spec). -/
def countUserMessages (messages : List Message) : Nat :=
  (messages.filter (fun m => m.role = "user")).length

/-- Default of `triage.maxConversationTurns`
(`src/unnamed/part_003` line 221: `parseInt(process.env.MAX_CONVERSATION_TURNS || '10')`). -/
def maxConversationTurnsDefault : Nat := 10

/-- A conversation that already contains exactly ten user turns. -/
def tenUserTurns : List Message :=
  ⟨"system", "ctx"⟩ :: (List.replicate 10 [Message.mk "user" "answer", Message.mk "assistant" "question"]).flatten

/-- An ACTIVE session sitting at the configured turn ceiling. -/
def sessionAtTurnCap : Session := ⟨"p1", patientA, tenUserTurns, 0, 0, false, none⟩

/-- A store holding only the at-ceiling session under id `"s3"`. -/
def storeAtTurnCap : SessionStore := [("s3", sessionAtTurnCap)]

/-- A concrete ACTIVE session. -/
def activeSession : Session :=
  ⟨"p1", patientA, [⟨"system", "ctx"⟩, ⟨"assistant", "hi"⟩], 0, 0, false, none⟩

/-- A store holding only the active session under id `"c1"`. -/
def storeWithActive : SessionStore := [("c1", activeSession)]

/-- The store obtained by creating one session in the empty store. -/
def storeAfterCreate : SessionStore := (createSession llmStub 0 [] "sid" patientA "uid").1

/-- One successful completing turn on `storeAfterCreate`. -/
def stepAfterCreate : SessionStore × ProcessResponse :=
  (processUserMessage ragStub llmStub genDone 1 storeAfterCreate "sid" "chest pain").toOption.getD
    ([], ⟨"", false, none, none⟩)

/-- The store after the completing turn. -/
def storeCompletedByStep : SessionStore := stepAfterCreate.1

/-- Stub failing embedding provider. -/
def embedFailStub : String → Except String (List Int) :=
  fun _ => .error "embedding service unavailable"

/-- Stub succeeding embedding provider. -/
def embedOkStub : String → Except String (List Int) := fun _ => .ok [1]

/-- Stub succeeding (empty) vector search. -/
def searchOkStub : List Int → String → Except String (List RagDoc) := fun _ _ => .ok []

/-- Stub failing vector search. -/
def searchFailStub : List Int → String → Except String (List RagDoc) :=
  fun _ _ => .error "vector index unavailable"

/-- A `JSON.parse` model that fails on every input. -/
def jsonParseNone : String → Option JsonValue := fun _ => none

/-! ## Theorems -/

/-- C10: for every urgency level and every patient data the warnings list
of `getWarningsByUrgency` is non-empty and begins with the fixed
disclaimer `'This is an automated assessment and not a medical
diagnosis.'`, and every result of `generateMockTriageResult` therefore
carries that disclaimer as its first warning. -/
theorem warnings_disclaimer_head :
    (∀ (urgencyLevel : String) (patientData : MockPatientData),
      (getWarningsByUrgency urgencyLevel patientData).head? =
        some "This is an automated assessment and not a medical diagnosis.") ∧
    (∀ (patientData : MockPatientData) (chatHistory : List Message)
      (complaintAnalysis : ComplaintAnalysis),
      (generateMockTriageResult patientData chatHistory complaintAnalysis).warnings.head? =
        some "This is an automated assessment and not a medical diagnosis.") := by
  constructor
  · intro urgencyLevel patientData
    simp [getWarningsByUrgency]
  · intro patientData chatHistory complaintAnalysis
    simp [generateMockTriageResult, getWarningsByUrgency]

/-- C7 counterexample: a triage response containing the EMERGENCY keyword
together with a lower-level keyword is mapped to the lower level, not to
EMERGENCY — the loop over `urgencyPatterns` lets the last matching
pattern win, so EMERGENCY does not take precedence. -/
theorem urgency_precedence_counterexample :
    extractUrgencyLevel "This is an EMERGENCY, not a NON-URGENT case." = "NON-URGENT" ∧
    testWordCI "EMERGENCY" "This is an EMERGENCY, not a NON-URGENT case." = true := by
  constructor
  · decide
  · decide

/-- C7 amended: `processTriage` checks the patterns in the fixed order
EMERGENCY, URGENT, SEMI-URGENT, NON-URGENT and each later match
overwrites the earlier one, so the effective precedence is
NON-URGENT > SEMI-URGENT > URGENT > EMERGENCY, with `"UNKNOWN"` when no
keyword matches. -/
theorem urgency_extraction_last_match_wins :
    ∀ triageResponse : String,
      extractUrgencyLevel triageResponse =
        (if testWordCI "NON-URGENT" triageResponse then "NON-URGENT"
         else if testWordCI "SEMI-URGENT" triageResponse then "SEMI-URGENT"
         else if testWordCI "URGENT" triageResponse then "URGENT"
         else if testWordCI "EMERGENCY" triageResponse then "EMERGENCY"
         else "UNKNOWN") := by
  intro t
  unfold extractUrgencyLevel
  cases h1 : testWordCI "EMERGENCY" t <;> cases h2 : testWordCI "URGENT" t <;>
    cases h3 : testWordCI "SEMI-URGENT" t <;> cases h4 : testWordCI "NON-URGENT" t <;>
    simp [h1, h2, h3, h4]

/-- Lookup after `Map.set`: the set key maps to the new session, other
keys are unaffected. -/
theorem storeGet_storeSet (store : SessionStore) (k k' : String) (v : Session) :
    storeGet (storeSet store k v) k' = if k' = k then some v else storeGet store k' := by
  induction store with
  | nil =>
    by_cases h : k' = k
    · subst h; simp [storeSet, storeGet]
    · simp [storeSet, storeGet, h, Ne.symm h]
  | cons p rest ih =>
    obtain ⟨k0, v0⟩ := p
    by_cases h0 : k0 = k
    · subst h0
      by_cases h : k' = k0
      · subst h; simp [storeSet, storeGet]
      · simp [storeSet, storeGet, h, Ne.symm h]
    · by_cases h : k0 = k'
      · subst h
        simp [storeSet, storeGet, h0]
      · by_cases hk : k' = k
        · subst hk
          simp [storeSet, storeGet, h0, h, ih]
        · simp [storeSet, storeGet, h0, h, hk, ih]

/-- `setHeadContent` preserves the number of messages. -/
theorem setHeadContent_length (messages : List Message) (content : String) :
    (setHeadContent messages content).length = messages.length := by
  cases messages <;> simp [setHeadContent]

/-- A found session always lets `processUserMessage` succeed: both
branches of the completion analysis return `.ok`. -/
theorem processUserMessage_found_ok (rag : String → List Message → String)
    (llm : String → List Message → Option String → String)
    (gen : List Message → Analysis) (now : Nat) (store : SessionStore)
    (sid msg : String) (s : Session) (h : storeGet store sid = some s) :
    ∃ store' resp, processUserMessage rag llm gen now store sid msg = .ok (store', resp) := by
  simp only [processUserMessage, h]
  cases analyzeForTriageCompletion gen
      (setHeadContent (s.messages ++ [⟨"user", msg⟩]) _) with
  | complete result => exact ⟨_, _, rfl⟩
  | notComplete missing => exact ⟨_, _, rfl⟩

/-- Anatomy of a successful `processUserMessage` call: the session was
found, the new store rebinds the same id to an updated session with two
more messages, and either the completion analysis signalled completion
(session marked complete, result stored, `triageComplete = true`) or it
did not (completion flag and stored result unchanged,
`triageComplete = false`). -/
theorem processUserMessage_ok_spec (rag : String → List Message → String)
    (llm : String → List Message → Option String → String)
    (gen : List Message → Analysis) (now : Nat) (store : SessionStore)
    (sid msg : String) (store' : SessionStore) (resp : ProcessResponse)
    (h : processUserMessage rag llm gen now store sid msg = .ok (store', resp)) :
    ∃ session, storeGet store sid = some session ∧
      ∃ session', store' = storeSet store sid session' ∧
        session'.messages.length = session.messages.length + 2 ∧
        ((session'.complete = true ∧ session'.triageResult.isSome = true ∧
            resp.triageComplete = true) ∨
         (session'.complete = session.complete ∧
            session'.triageResult = session.triageResult ∧
            resp.triageComplete = false)) := by
  cases hget : storeGet store sid with
  | none => simp [processUserMessage, hget] at h
  | some session =>
    refine ⟨session, rfl, ?_⟩
    simp only [processUserMessage, hget] at h
    cases hca : analyzeForTriageCompletion gen
        (setHeadContent (session.messages ++ [⟨"user", msg⟩]) _) with
    | complete result =>
      rw [hca] at h
      injection h with h'
      obtain ⟨rfl, rfl⟩ := Prod.mk.injEq .. ▸ And.intro (congrArg Prod.fst h') (congrArg Prod.snd h')
      refine ⟨_, rfl, ?_, Or.inl ⟨rfl, rfl, rfl⟩⟩
      simp [setHeadContent_length]
    | notComplete missing =>
      rw [hca] at h
      injection h with h'
      obtain ⟨rfl, rfl⟩ := Prod.mk.injEq .. ▸ And.intro (congrArg Prod.fst h') (congrArg Prod.snd h')
      refine ⟨_, rfl, ?_, Or.inr ⟨rfl, rfl, rfl⟩⟩
      simp [setHeadContent_length]

/-- C2 counterexample: submitting a message to the COMPLETE session
`"s1"` does not fail — the call returns `.ok` and the stored session now
has four messages instead of two, so state was mutated. -/
theorem submit_complete_counterexample :
    completedSession.complete = true ∧
    completedSession.messages.length = 2 ∧
    (processUserMessage ragStub llmStub genNotDone 1 storeWithCompleted "s1" "hello").isOk = true ∧
    ((processUserMessage ragStub llmStub genNotDone 1 storeWithCompleted "s1" "hello").toOption.map
      (fun p => (storeGet p.1 "s1").map (fun s => s.messages.length))) = some (some 4) := by
  refine ⟨rfl, rfl, ?_, ?_⟩ <;> decide

/-- C2 amended: `processUserMessage` checks only that the session exists:
an unknown id fails with `'Session not found'`, while a COMPLETE session
is processed like any other — the call succeeds and two messages are
appended to the stored session. -/
theorem submit_message_no_complete_guard :
    (∀ (rag : String → List Message → String)
      (llm : String → List Message → Option String → String)
      (gen : List Message → Analysis) (now : Nat) (store : SessionStore) (sid msg : String),
      storeGet store sid = none →
      processUserMessage rag llm gen now store sid msg = .error "Session not found") ∧
    (∀ (rag : String → List Message → String)
      (llm : String → List Message → Option String → String)
      (gen : List Message → Analysis) (now : Nat) (store : SessionStore) (sid msg : String)
      (s : Session),
      storeGet store sid = some s → s.complete = true →
      ∃ store' resp,
        processUserMessage rag llm gen now store sid msg = .ok (store', resp) ∧
        ∃ s', storeGet store' sid = some s' ∧
          s'.messages.length = s.messages.length + 2) := by
  constructor
  · intro rag llm gen now store sid msg h
    simp [processUserMessage, h]
  · intro rag llm gen now store sid msg s hget _hcomplete
    obtain ⟨store', resp, hok⟩ :=
      processUserMessage_found_ok rag llm gen now store sid msg s hget
    refine ⟨store', resp, hok, ?_⟩
    obtain ⟨session, hsession, session', rfl, hlen, _⟩ :=
      processUserMessage_ok_spec rag llm gen now store sid msg store' resp hok
    rw [hget] at hsession
    injection hsession with hsession
    subst hsession
    exact ⟨session', by simp [storeGet_storeSet], hlen⟩

/-- C2 witness: the amended claim at concrete inputs — an unknown id
fails, and submitting to the concrete COMPLETE session succeeds and grows
its message list. -/
theorem submit_message_no_complete_guard_witness :
    processUserMessage ragStub llmStub genNotDone 1 [] "nope" "hello" =
      .error "Session not found" ∧
    ∃ store' resp,
      processUserMessage ragStub llmStub genNotDone 1 storeWithCompleted "s1" "hello" =
        .ok (store', resp) ∧
      ∃ s', storeGet store' "s1" = some s' ∧
        s'.messages.length = completedSession.messages.length + 2 :=
  ⟨submit_message_no_complete_guard.1 ragStub llmStub genNotDone 1 [] "nope" "hello" rfl,
   submit_message_no_complete_guard.2 ragStub llmStub genNotDone 1 storeWithCompleted "s1"
     "hello" completedSession rfl rfl⟩

/-- C3: the configured turn ceiling is never enforced.  The session
`"s3"` already holds `maxConversationTurns` (default 10) user messages;
submitting the eleventh user message while the completion analysis gives
no confident signal still returns `triageComplete = false` and leaves the
session ACTIVE, instead of forcing finalization. -/
theorem turn_ceiling_not_enforced :
    countUserMessages sessionAtTurnCap.messages = maxConversationTurnsDefault ∧
    sessionAtTurnCap.complete = false ∧
    ((processUserMessage ragStub llmStub genNotDone 2 storeAtTurnCap "s3" "eleventh answer").toOption.map
      (fun p => p.2.triageComplete)) = some false ∧
    ((processUserMessage ragStub llmStub genNotDone 2 storeAtTurnCap "s3" "eleventh answer").toOption.map
      (fun p => (storeGet p.1 "s3").map (fun s => (s.complete, countUserMessages s.messages)))) =
      some (some (false, 11)) := by
  refine ⟨rfl, rfl, ?_, ?_⟩ <;> decide

/-- Invariant of every reachable session store: a stored session is
marked complete exactly when it holds a triage result.  `createSession`
starts sessions with `complete = false` and `triageResult = null`, and
`processUserMessage` sets `complete = true` and stores the result in the
same step. -/
theorem reachable_result_inv (store : SessionStore) (h : ReachableStore store) :
    ∀ sid s, storeGet store sid = some s →
      (s.complete = true ↔ s.triageResult.isSome = true) := by
  induction h with
  | init => intro sid s hs; simp [storeGet] at hs
  | create store0 llm now sid0 info uid _ ih =>
    intro sid s hs
    simp only [createSession] at hs
    rw [storeGet_storeSet] at hs
    by_cases hsid : sid = sid0
    · rw [if_pos hsid] at hs
      injection hs with hs
      subst hs
      simp
    · rw [if_neg hsid] at hs
      exact ih sid s hs
  | step store0 rag llm gen now sid0 msg store' resp _ hok ih =>
    intro sid s hs
    obtain ⟨session, hsession, session', rfl, _, hcases⟩ :=
      processUserMessage_ok_spec rag llm gen now store0 sid0 msg store' resp hok
    rw [storeGet_storeSet] at hs
    by_cases hsid : sid = sid0
    · rw [if_pos hsid] at hs
      injection hs with hs
      subst hs
      rcases hcases with ⟨hc, hr, _⟩ | ⟨hc, hr, _⟩
      · simp [hc, hr]
      · rw [hc, hr]
        exact ih sid0 session hsession
    · rw [if_neg hsid] at hs
      exact ih sid s hs

/-- C8: on every store reachable through the service API,
`getTriageResult` returns a non-null result exactly when the session
exists and is COMPLETE (and `null` for unknown or still-ACTIVE
sessions). -/
theorem result_iff_complete (store : SessionStore) (h : ReachableStore store) (sid : String) :
    (getTriageResult store sid).isSome = true ↔
      ∃ s, storeGet store sid = some s ∧ s.complete = true := by
  unfold getTriageResult
  cases hget : storeGet store sid with
  | none => simp
  | some s =>
    cases hcomp : s.complete with
    | false => simp [hcomp]
    | true =>
      have hres := (reachable_result_inv store h sid s hget).mp hcomp
      simp [hcomp, hres]

/-- The concrete store reached by creating a session in the empty store
and processing one completing turn is reachable. -/
theorem storeCompletedByStep_reachable : ReachableStore storeCompletedByStep :=
  ReachableStore.step storeAfterCreate ragStub llmStub genDone 1 "sid" "chest pain"
    stepAfterCreate.1 stepAfterCreate.2
    (ReachableStore.create [] llmStub 0 "sid" patientA "uid" ReachableStore.init)
    (by rfl)

/-- C8 witness: the equivalence at the concrete reachable store, where
the session `"sid"` is complete and a result is indeed present. -/
theorem result_iff_complete_witness :
    ((getTriageResult storeCompletedByStep "sid").isSome = true ↔
      ∃ s, storeGet storeCompletedByStep "sid" = some s ∧ s.complete = true) ∧
    (getTriageResult storeCompletedByStep "sid").isSome = true :=
  ⟨result_iff_complete storeCompletedByStep storeCompletedByStep_reachable "sid", by decide⟩

/-- C1 counterexample: a session completes through the backend
completion analysis while a user message contains (case-insensitively)
the phrase `can't breathe`, yet the stored result has urgency
`Non-urgent` — `analyzeForTriageCompletion` copies the model output with
no deterministic safety floor. -/
theorem emergency_floor_counterexample :
    ((processUserMessage ragStub llmStub genModelDowngrade 1 storeWithActive "c1"
        "I CAN\x27T BREATHE").toOption.map
      (fun p => (storeGet p.1 "c1").map (fun s => (s.complete, s.triageResult)))) =
      some (some (true, some ⟨"Non-urgent", "Routine care", "model reasoning"⟩)) ∧
    ((processUserMessage ragStub llmStub genModelDowngrade 1 storeWithActive "c1"
        "I CAN\x27T BREATHE").toOption.map
      (fun p => (storeGet p.1 "c1").map (fun s =>
        s.messages.any (fun m =>
          m.role = "user" && strIncludes (toLowerStr m.content) "can\x27t breathe")))) =
      some (some true) := by
  constructor <;> decide

/-- C1 amended: the deterministic floor exists in the frontend mock
result generator — whenever some user message of the chat history
contains (lowercased) one of the emergency indicators (`severe`,
`excruciating`, `worst`, `can't breathe`, `10 out of 10`),
`generateMockTriageResult` never returns `semi-urgent` or `non-urgent`:
its urgency is `emergency` or `urgent`. -/
theorem mock_emergency_floor (patientData : MockPatientData) (chatHistory : List Message)
    (complaintAnalysis : ComplaintAnalysis)
    (h : ∃ m ∈ chatHistory, m.role = "user" ∧
      mockEmergencyWords.any (fun w => strIncludes (toLowerStr m.content) w) = true) :
    (generateMockTriageResult patientData chatHistory complaintAnalysis).urgencyLevel =
      "emergency" ∨
    (generateMockTriageResult patientData chatHistory complaintAnalysis).urgencyLevel =
      "urgent" := by
  obtain ⟨m, hm, hrole, hword⟩ := h
  have hEmpty : chatHistory.isEmpty = false := by
    cases chatHistory with
    | nil => cases hm
    | cons c cs => rfl
  have hmem1 : m ∈ chatHistory.filter (fun x => x.role = "user") :=
    List.mem_filter.mpr ⟨hm, by simp [hrole]⟩
  have hany : ((chatHistory.filter (fun x => x.role = "user")).map
      (fun x => toLowerStr x.content)).any
      (fun msg => mockEmergencyWords.any (fun w => strIncludes msg w)) = true := by
    rw [List.any_eq_true]
    exact ⟨toLowerStr m.content, List.mem_map_of_mem _ hmem1, hword⟩
  by_cases hu0 : complaintAnalysis.potentialUrgency.getD "non-urgent" = "emergency"
  · left
    simp only [generateMockTriageResult, hEmpty, Bool.false_eq_true, if_false, hany, hu0]
    simp
  · right
    simp only [generateMockTriageResult, hEmpty, Bool.false_eq_true, if_false, hany, hu0]
    simp [hu0]

/-- C1 amended witness: the floor at a concrete conversation containing
`can't breathe`. -/
theorem mock_emergency_floor_witness :
    (generateMockTriageResult ⟨"45"⟩ [⟨"user", "I can\x27t breathe"⟩]
        ⟨some "non-urgent", some []⟩).urgencyLevel = "emergency" ∨
    (generateMockTriageResult ⟨"45"⟩ [⟨"user", "I can\x27t breathe"⟩]
        ⟨some "non-urgent", some []⟩).urgencyLevel = "urgent" :=
  mock_emergency_floor ⟨"45"⟩ [⟨"user", "I can\x27t breathe"⟩] ⟨some "non-urgent", some []⟩
    ⟨⟨"user", "I can\x27t breathe"⟩, by decide, by decide, by decide⟩

/-- C4: when no parseable JSON object can be extracted from the model
reply (the parse fails on the brace-delimited fragment if one exists,
and on the whole reply otherwise), both structured-analysis embeddings
return their soft-failure object — `canComplete = false` with a
non-empty `missingInformation` note — instead of raising; and a turn
whose completion analysis is that fallback leaves the session ACTIVE
with `triageComplete = false`. -/
theorem analysis_parse_fallback :
    (∀ (jsonParse : String → Option JsonValue) (resultText : String),
      (∀ m, extractBraced resultText = some m → jsonParse m = none) →
      (extractBraced resultText = none → jsonParse resultText = none) →
      lcStructuredAnalysis jsonParse resultText = lcFormatFallback ∧
      llmStructuredAnalysisLocal jsonParse resultText = llmFallbackAnalysis ∧
      jsonGet "canComplete" lcFormatFallback = some (.jbool false) ∧
      jsonGet "missingInformation" lcFormatFallback =
        some (.jarr [.jstr "Unable to analyze due to response format error"]) ∧
      jsonGet "canComplete" llmFallbackAnalysis = some (.jbool false) ∧
      jsonGet "missingInformation" llmFallbackAnalysis =
        some (.jarr [.jstr "Unable to complete analysis due to system error"])) ∧
    (∀ (rag : String → List Message → String)
      (llm : String → List Message → Option String → String)
      (now : Nat) (store : SessionStore) (sid msg : String) (s : Session),
      storeGet store sid = some s → s.complete = false →
      ∃ store' resp,
        processUserMessage rag llm (fun _ => fallbackAnalysisRecord) now store sid msg =
          .ok (store', resp) ∧
        resp.triageComplete = false ∧
        ∃ s', storeGet store' sid = some s' ∧ s'.complete = false) := by
  constructor
  · intro jsonParse resultText h1 h2
    refine ⟨?_, ?_, rfl, rfl, rfl, rfl⟩
    · unfold lcStructuredAnalysis
      cases hx : extractBraced resultText with
      | none => simp [h2 hx]
      | some matched => simp [h1 matched hx]
    · unfold llmStructuredAnalysisLocal
      cases hx : extractBraced resultText with
      | none => rfl
      | some matched => simp [h1 matched hx]
  · intro rag llm now store sid msg s hget hactive
    simp only [processUserMessage, hget]
    refine ⟨_, _, rfl, rfl, ?_⟩
    rw [storeGet_storeSet]
    simp only [if_pos rfl]
    exact ⟨_, rfl, hactive⟩

/-- C4 witness: the fallback at a concrete unparseable reply and a
concrete ACTIVE session. -/
theorem analysis_parse_fallback_witness :
    (lcStructuredAnalysis jsonParseNone "model rambling with no parseable object" =
        lcFormatFallback ∧
      llmStructuredAnalysisLocal jsonParseNone "model rambling with no parseable object" =
        llmFallbackAnalysis ∧
      jsonGet "canComplete" lcFormatFallback = some (.jbool false) ∧
      jsonGet "missingInformation" lcFormatFallback =
        some (.jarr [.jstr "Unable to analyze due to response format error"]) ∧
      jsonGet "canComplete" llmFallbackAnalysis = some (.jbool false) ∧
      jsonGet "missingInformation" llmFallbackAnalysis =
        some (.jarr [.jstr "Unable to complete analysis due to system error"])) ∧
    ∃ store' resp,
      processUserMessage ragStub llmStub (fun _ => fallbackAnalysisRecord) 1 storeWithActive
          "c1" "still unsure" = .ok (store', resp) ∧
      resp.triageComplete = false ∧
      ∃ s', storeGet store' "c1" = some s' ∧ s'.complete = false :=
  ⟨analysis_parse_fallback.1 jsonParseNone "model rambling with no parseable object"
      (fun _ _ => rfl) (fun _ => rfl),
   analysis_parse_fallback.2 ragStub llmStub 1 storeWithActive "c1" "still unsure"
     activeSession rfl rfl⟩

/-- C5: if the embedding call or the vector search fails on the enhanced
query, `retrieveRelevantMedicalInfo` returns the empty context string —
a normal return (the function's type carries no error), so the session
turn proceeds ungrounded instead of aborting. -/
theorem retrieve_failure_returns_empty
    (embedQuery : String → Except String (List Int))
    (searchDb : List Int → String → Except String (List RagDoc))
    (query : String) (conversationHistory : List Message)
    (h : (∃ e, embedQuery (enhancedQueryOf query conversationHistory) = .error e) ∨
      (∃ v, embedQuery (enhancedQueryOf query conversationHistory) = .ok v ∧
        ∃ e, searchDb v (enhancedQueryOf query conversationHistory) = .error e)) :
    retrieveRelevantMedicalInfo embedQuery searchDb query conversationHistory = "" := by
  unfold retrieveRelevantMedicalInfo
  simp only []
  rcases h with ⟨e, he⟩ | ⟨v, hv, e, he⟩
  · rw [he]
  · rw [hv]
    simp only []
    rw [he]

/-- C5 witness: a failing embedding provider and a failing vector search
both yield the empty context at a concrete query. -/
theorem retrieve_failure_returns_empty_witness :
    retrieveRelevantMedicalInfo embedFailStub searchOkStub "chest pain"
      [⟨"user", "chest pain"⟩] = "" ∧
    retrieveRelevantMedicalInfo embedOkStub searchFailStub "chest pain"
      [⟨"user", "chest pain"⟩] = "" :=
  ⟨retrieve_failure_returns_empty embedFailStub searchOkStub "chest pain"
      [⟨"user", "chest pain"⟩] (Or.inl ⟨"embedding service unavailable", rfl⟩),
   retrieve_failure_returns_empty embedOkStub searchFailStub "chest pain"
      [⟨"user", "chest pain"⟩]
      (Or.inr ⟨[1], rfl, "vector index unavailable", rfl⟩)⟩

/-- Budget bound for the truncation loop, generalized over the running
`totalLength` accumulator. -/
theorem truncateLoop_total_le (maxLength : Nat) :
    ∀ (docs : List CtxDoc) (acc : Nat),
      totalContentLength (truncateLoop maxLength docs acc) ≤ maxLength - acc := by
  intro docs
  induction docs with
  | nil => intro acc; simp [truncateLoop, totalContentLength]
  | cons doc rest ih =>
    intro acc
    simp only [truncateLoop]
    by_cases hfit : acc + (effContent doc).length ≤ maxLength
    · have hrest := ih (acc + (effContent doc).length)
      simp only [hfit, if_pos, totalContentLength, List.map_cons, List.sum_cons]
      simp only [totalContentLength] at hrest
      omega
    · simp only [hfit, if_neg, if_false]
      by_cases hroom : maxLength - acc > 100
      · have hlen : ((effContent doc).take (maxLength - acc)).length = maxLength - acc := by
          rw [List.length_take]
          omega
        have hne : ¬((effContent doc).take (maxLength - acc) = []) := by
          intro hcon
          rw [hcon] at hlen
          simp at hlen
          omega
        have hEff : effContent
            { doc with content := (effContent doc).take (maxLength - acc), truncated := true } =
            (effContent doc).take (maxLength - acc) := if_neg hne
        simp only [hroom, if_pos, totalContentLength, List.map_cons, List.map_nil,
          List.sum_cons, List.sum_nil, hEff, hlen]
        omega
      · simp [hroom, totalContentLength]

/-- Greedy shape of the truncation loop, generalized over the running
accumulator: the output is a prefix of the input taken whole, followed —
exactly when the next document overflows the budget and more than 100
characters remain — by that document hard-truncated to the remaining
space and marked `truncated`. -/
theorem truncateLoop_shape (maxLength : Nat) :
    ∀ (docs : List CtxDoc) (acc : Nat),
      ∃ n, n ≤ docs.length ∧
        (acc + totalContentLength (docs.take n) ≤ maxLength ∨ n = 0) ∧
        ((docs.drop n = [] ∧ truncateLoop maxLength docs acc = docs.take n) ∨
         (∃ d rest, docs.drop n = d :: rest ∧
            acc + totalContentLength (docs.take n) + (effContent d).length > maxLength ∧
            ((maxLength - (acc + totalContentLength (docs.take n)) > 100 ∧
              truncateLoop maxLength docs acc = docs.take n ++
                [{ d with
                   content := (effContent d).take (maxLength - (acc + totalContentLength (docs.take n))),
                   truncated := true }]) ∨
             (maxLength - (acc + totalContentLength (docs.take n)) ≤ 100 ∧
              truncateLoop maxLength docs acc = docs.take n)))) := by
  intro docs
  induction docs with
  | nil =>
    intro acc
    exact ⟨0, Nat.le_refl 0, Or.inr rfl, Or.inl ⟨rfl, by simp [truncateLoop]⟩⟩
  | cons doc rest ih =>
    intro acc
    by_cases hfit : acc + (effContent doc).length ≤ maxLength
    · obtain ⟨n, hn, hacc, hshape⟩ := ih (acc + (effContent doc).length)
      have htake : (doc :: rest).take (n + 1) = doc :: rest.take n := by
        simp [List.take_succ_cons]
      have htotal : totalContentLength ((doc :: rest).take (n + 1)) =
          (effContent doc).length + totalContentLength (rest.take n) := by
        rw [htake]
        simp [totalContentLength]
      have hA : acc + totalContentLength ((doc :: rest).take (n + 1)) =
          acc + (effContent doc).length + totalContentLength (rest.take n) := by
        rw [htotal]
        omega
      have hloop : truncateLoop maxLength (doc :: rest) acc =
          doc :: truncateLoop maxLength rest (acc + (effContent doc).length) := by
        simp [truncateLoop, hfit]
      refine ⟨n + 1, by simpa using hn, ?_, ?_⟩
      · left
        rw [hA]
        rcases hacc with hle | hzero
        · exact hle
        · subst hzero
          simpa [totalContentLength] using hfit
      · rcases hshape with ⟨hdrop, hout⟩ | ⟨d, r2, hdrop, hover, hsub⟩
        · left
          refine ⟨by simpa using hdrop, ?_⟩
          rw [hloop, hout, htake]
        · right
          refine ⟨d, r2, by simpa using hdrop, ?_, ?_⟩
          · rw [hA]
            exact hover
          · rw [hA]
            rcases hsub with ⟨hroom, hout⟩ | ⟨hroom, hout⟩
            · left
              refine ⟨hroom, ?_⟩
              rw [hloop, hout, htake]
              rfl
            · right
              refine ⟨hroom, ?_⟩
              rw [hloop, hout, htake]
    · refine ⟨0, Nat.zero_le _, Or.inr rfl, Or.inr ⟨doc, rest, rfl, ?_, ?_⟩⟩
      · simp only [List.take_zero, totalContentLength, List.map_nil, List.sum_nil]
        omega
      · simp only [List.take_zero, totalContentLength, List.map_nil, List.sum_nil,
          Nat.add_zero, List.nil_append]
        by_cases hroom : maxLength - acc > 100
        · left
          exact ⟨hroom, by simp [truncateLoop, hfit, hroom]⟩
        · right
          exact ⟨by omega, by simp [truncateLoop, hfit, hroom]⟩

/-- C6: the output of `_truncateContext` never exceeds the `maxChars`
budget in total content length, and it is the greedy rank-order prefix of
the input, with the first overflowing chunk hard-truncated (and marked
`truncated := true`) exactly when more than the 100-character usefulness
threshold remains, and dropped otherwise. -/
theorem truncate_budget (docs : List CtxDoc) (maxChars : Nat) :
    totalContentLength (truncateContext docs maxChars) ≤ maxChars ∧
    ∃ n, n ≤ docs.length ∧ totalContentLength (docs.take n) ≤ maxChars ∧
      ((docs.drop n = [] ∧ truncateContext docs maxChars = docs.take n) ∨
       (∃ d rest, docs.drop n = d :: rest ∧
          totalContentLength (docs.take n) + (effContent d).length > maxChars ∧
          ((maxChars - totalContentLength (docs.take n) > 100 ∧
            truncateContext docs maxChars = docs.take n ++
              [{ d with
                 content := (effContent d).take (maxChars - totalContentLength (docs.take n)),
                 truncated := true }]) ∨
           (maxChars - totalContentLength (docs.take n) ≤ 100 ∧
            truncateContext docs maxChars = docs.take n)))) := by
  constructor
  · have h := truncateLoop_total_le maxChars docs 0
    simpa [truncateContext] using h
  · obtain ⟨n, hn, hacc, hshape⟩ := truncateLoop_shape maxChars docs 0
    refine ⟨n, hn, ?_, ?_⟩
    · rcases hacc with hle | hzero
      · simpa using hle
      · subst hzero
        simp [totalContentLength]
    · simpa [truncateContext] using hshape

/-- Unfolding of the squared distance on cons cells. -/
theorem sqDist_cons (a b : ℚ) (as bs : List ℚ) :
    sqDist (a :: as) (b :: bs) = (a - b) ^ 2 + sqDist as bs := by
  simp [sqDist]

/-- The squared distance of a vector to itself is zero. -/
theorem sqDist_self (v : List ℚ) : sqDist v v = 0 := by
  induction v with
  | nil => simp [sqDist]
  | cons a as ih => rw [sqDist_cons, ih]; ring

/-- Squared distances are nonnegative. -/
theorem sqDist_nonneg (u v : List ℚ) : 0 ≤ sqDist u v := by
  induction u generalizing v with
  | nil => simp [sqDist]
  | cons a as ih =>
    cases v with
    | nil => simp [sqDist]
    | cons b bs =>
      rw [sqDist_cons]
      have h1 := sq_nonneg (a - b)
      have h2 := ih bs
      linarith

/-- Distinct vectors of the same dimension are at positive squared
distance. -/
theorem sqDist_pos (u v : List ℚ) (hlen : u.length = v.length) (hne : u ≠ v) :
    0 < sqDist u v := by
  induction u generalizing v with
  | nil =>
    cases v with
    | nil => exact absurd rfl hne
    | cons b bs => simp at hlen
  | cons a as ih =>
    cases v with
    | nil => simp at hlen
    | cons b bs =>
      rw [sqDist_cons]
      by_cases hab : a = b
      · subst hab
        have hne' : as ≠ bs := by
          intro hcon
          exact hne (by rw [hcon])
        have hpos := ih bs (by simpa using hlen) hne'
        have h1 := sq_nonneg (a - a)
        linarith
      · have hsub : a - b ≠ 0 := sub_ne_zero.mpr hab
        have h1 : 0 < (a - b) ^ 2 :=
          lt_of_le_of_ne (sq_nonneg (a - b)) (Ne.symm (pow_ne_zero 2 hsub))
        have h2 := sqDist_nonneg as bs
        linarith

/-- Membership is preserved by a single stable insertion. -/
theorem mem_insertByDist (x y : Nat × ℚ) (s : List (Nat × ℚ)) :
    y ∈ insertByDist x s → y = x ∨ y ∈ s := by
  induction s with
  | nil => intro h; simp [insertByDist] at h; exact Or.inl h
  | cons z zs ih =>
    intro h
    simp only [insertByDist] at h
    by_cases hlt : x.2 < z.2
    · rw [if_pos hlt] at h
      rcases List.mem_cons.mp h with h1 | h1
      · exact Or.inl h1
      · exact Or.inr h1
    · rw [if_neg hlt] at h
      rcases List.mem_cons.mp h with h1 | h1
      · exact Or.inr (List.mem_cons.mpr (Or.inl h1))
      · rcases ih h1 with h2 | h2
        · exact Or.inl h2
        · exact Or.inr (List.mem_cons.mpr (Or.inr h2))

/-- Membership is preserved by the stable insertion sort. -/
theorem mem_sortByDist (y : Nat × ℚ) (l : List (Nat × ℚ)) :
    y ∈ sortByDist l → y ∈ l := by
  induction l with
  | nil => intro h; simp [sortByDist] at h
  | cons z zs ih =>
    intro h
    rcases mem_insertByDist z y (sortByDist zs) h with h1 | h1
    · exact List.mem_cons.mpr (Or.inl h1)
    · exact List.mem_cons.mpr (Or.inr (ih h1))

/-- Inserting an element no larger than everything in the list puts it at
the head (elements equal to it as pairs also qualify). -/
theorem insertByDist_headq (x : Nat × ℚ) (s : List (Nat × ℚ))
    (h : ∀ y ∈ s, y = x ∨ x.2 < y.2) : (insertByDist x s).head? = some x := by
  cases s with
  | nil => rfl
  | cons y ys =>
    simp only [insertByDist]
    by_cases hlt : x.2 < y.2
    · rw [if_pos hlt]; rfl
    · rcases h y (List.mem_cons_self y ys) with h1 | h1
      · rw [if_neg hlt, h1]; rfl
      · exact absurd h1 hlt

/-- The head of the stable insertion sort is the unique strict minimum,
when one exists. -/
theorem sortByDist_headq (l : List (Nat × ℚ)) (x : Nat × ℚ) (hx : x ∈ l)
    (hmin : ∀ y ∈ l, y = x ∨ x.2 < y.2) : (sortByDist l).head? = some x := by
  induction l with
  | nil => cases hx
  | cons z zs ih =>
    simp only [sortByDist]
    rcases List.mem_cons.mp hx with rfl | hx'
    · apply insertByDist_headq
      intro y hy
      exact hmin y (List.mem_cons.mpr (Or.inr (mem_sortByDist y zs hy)))
    · have hz := hmin z (List.mem_cons_self z zs)
      have hhead := ih hx' (fun y hy => hmin y (List.mem_cons.mpr (Or.inr hy)))
      cases hsort : sortByDist zs with
      | nil => rw [hsort] at hhead; simp at hhead
      | cons w ws =>
        rw [hsort] at hhead
        simp only [List.head?_cons, Option.some.injEq] at hhead
        subst hhead
        simp only [insertByDist]
        rcases hz with rfl | hzx
        · rw [if_neg (lt_irrefl z.2)]
          rfl
        · rw [if_neg (not_lt.mpr (le_of_lt hzx))]
          rfl

/-- The head of `take k` is the head of the list when `k ≥ 1`. -/
theorem headq_take {α : Type} (l : List α) (k : Nat) (hk : 1 ≤ k) :
    (l.take k).head? = l.head? := by
  cases k with
  | zero => omega
  | succ k' => cases l <;> simp

/-- C9: self-retrieval round trip on the spec-modelled flat L2 index —
for an index of pairwise-distinct equal-dimension embeddings, searching
with chunk `i`'s own embedding returns chunk `i` as the top-1 result
(its distance is zero, every other chunk's is positive, so no tie
arises), and the metadata-formatting layer of `search` therefore yields
chunk `i`'s metadata first. -/
theorem self_retrieval_top1 (embeddings : List (List ℚ)) (metadata : List String)
    (D i k : Nat)
    (hdim : ∀ e ∈ embeddings, e.length = D)
    (hdistinct : embeddings.Pairwise (fun u v => u ≠ v))
    (hi : i < embeddings.length)
    (hk : 1 ≤ k)
    (hm : metadata.length = embeddings.length) :
    (knnSearch embeddings (embeddings.getD i []) k).head? = some i ∧
    (searchTopMeta embeddings metadata (embeddings.getD i []) k).head? = metadata.get? i := by
  have hpair := List.pairwise_iff_getElem.mp hdistinct
  have hx : (i, (0 : ℚ)) ∈ (List.range embeddings.length).map
      (fun j => (j, sqDist (embeddings.getD j []) (embeddings.getD i []))) := by
    apply List.mem_map.mpr
    exact ⟨i, List.mem_range.mpr hi, by rw [sqDist_self]⟩
  have hmin : ∀ y ∈ (List.range embeddings.length).map
      (fun j => (j, sqDist (embeddings.getD j []) (embeddings.getD i []))),
      y = (i, (0 : ℚ)) ∨ (i, (0 : ℚ)).2 < y.2 := by
    intro y hy
    obtain ⟨j, hj, rfl⟩ := List.mem_map.mp hy
    have hj' := List.mem_range.mp hj
    by_cases hji : j = i
    · subst hji
      left
      rw [sqDist_self]
    · right
      have hgetj : embeddings.getD j [] = embeddings[j] := List.getD_eq_getElem _ _ hj'
      have hgeti : embeddings.getD i [] = embeddings[i] := List.getD_eq_getElem _ _ hi
      have hne : embeddings[j] ≠ embeddings[i] := by
        rcases Nat.lt_or_ge j i with hlt | hge
        · exact hpair j i hj' hi hlt
        · have hlt : i < j := by omega
          exact (hpair i j hi hj' hlt).symm
      have hlenj : (embeddings[j]).length = D := hdim _ (List.getElem_mem hj')
      have hleni : (embeddings[i]).length = D := hdim _ (List.getElem_mem hi)
      have hpos : 0 < sqDist embeddings[j] embeddings[i] :=
        sqDist_pos _ _ (by rw [hlenj, hleni]) hne
      rw [hgetj, hgeti]
      exact hpos
  have hsorted := sortByDist_headq _ (i, (0 : ℚ)) hx hmin
  have hknn : (knnSearch embeddings (embeddings.getD i []) k).head? = some i := by
    unfold knnSearch
    rw [headq_take _ k hk, List.head?_map, hsorted]
    rfl
  refine ⟨hknn, ?_⟩
  have hexists : ∃ m, metadata.get? i = some m := by
    rcases h : metadata.get? i with _ | m
    · rw [List.get?_eq_none] at h
      omega
    · exact ⟨m, rfl⟩
  obtain ⟨m, hmeta⟩ := hexists
  cases hlist : knnSearch embeddings (embeddings.getD i []) k with
  | nil => rw [hlist] at hknn; simp at hknn
  | cons j t =>
    rw [hlist] at hknn
    simp only [List.head?_cons, Option.some.injEq] at hknn
    subst hknn
    unfold searchTopMeta
    rw [hlist, List.filterMap_cons, hmeta]
    simp [hmeta]

/-- C9 witness: the round trip at a concrete two-chunk index, querying
with chunk 1's own embedding. -/
theorem self_retrieval_top1_witness :
    (knnSearch [[1, 0], [0, 1]] ([[1, 0], [0, 1]].getD 1 []) 1).head? = some 1 ∧
    (searchTopMeta [[1, 0], [0, 1]] ["alpha", "beta"]
        ([[1, 0], [0, 1]].getD 1 []) 1).head? = (["alpha", "beta"] : List String).get? 1 :=
  self_retrieval_top1 [[1, 0], [0, 1]] ["alpha", "beta"] 2 1 1
    (by intro e he; fin_cases he <;> rfl)
    (by norm_num)
    (by norm_num)
    (le_refl 1)
    rfl
